import Mathlib

/-!
Verification development for the InQuiz interview-practice backend.

The embedding follows src/app/ai_service.py (conversation intent resolution
and its deterministic fallback), src/app/voice_service.py (the interview
turn controller, a state machine over the in-memory session table and the
persisted interview document) and src/app/routes.py (the thin HTTP layer
over them).  The external text-generation gateway is modelled as an opaque
outcome per call site (usable text / structured judgment, or `none` for a
failure, timeout or unparseable reply); the document store is modelled as
the one interview document the claims speak about, and the in-memory
session table as the `Option` of that interview's entry.  Wall-clock
timestamps from the event loop are threaded as plain `Nat` values where a
claim can observe them (`completed_at`) and dropped from transcript events,
which no control decision reads.
-/

/-! ## Python string primitives -/

/-- Whitespace as Python `str.split` / `str.strip` treat it (the ASCII part,
which covers every string the code ever matches against). -/
def pyIsSpace (c : Char) : Bool :=
  c == ' ' || c == '\t' || c == '\n' || c == '\r' || c == '\x0b' || c == '\x0c'

/-- Count the maximal non-whitespace runs of a character list; the Boolean
says whether the previous character was inside a word. -/
def wordCountAux : List Char → Bool → Nat
  | [], _ => 0
  | c :: rest, inWord =>
    if pyIsSpace c then wordCountAux rest false
    else if inWord then wordCountAux rest true
    else wordCountAux rest true + 1

/-- `len(s.split())` in Python: the number of whitespace-separated words. -/
def pyWordCount (s : String) : Nat := wordCountAux s.toList false

/-- Does the second list occur as a leading segment of the first? -/
def listStartsWith : List Char → List Char → Bool
  | _, [] => true
  | [], _ :: _ => false
  | a :: as, b :: bs => a == b && listStartsWith as bs

/-- Does `needle` occur as a contiguous sublist of the first list? -/
def listHasSub : List Char → List Char → Bool
  | [], needle => needle.isEmpty
  | c :: rest, needle => listStartsWith (c :: rest) needle || listHasSub rest needle

/-- Python `needle in hay` on strings: contiguous substring containment. -/
def pyContains (hay needle : String) : Bool := listHasSub hay.toList needle.toList

/-- Python `s.lower()` (ASCII case fold, all the phrase sets are ASCII). -/
def pyLower (s : String) : String := String.mk (s.toList.map Char.toLower)

/-- Python `s.strip()`: drop leading and trailing whitespace. -/
def pyStrip (s : String) : String :=
  String.mk (((s.toList.dropWhile pyIsSpace).reverse.dropWhile pyIsSpace).reverse)

/-! ## ai_service.py — ConversationManager -/

/-- The outcome the conversation layer gets from one resolver invocation
(src/app/ai_service.py, the dicts returned by
`ConversationManager.process_user_input` and its helpers): the action tag,
the AI reply text, the `continue_listening` / `needs_follow_up` flags, and
the quality label when the branch supplies one (`none` where the source dict
has no `response_quality` key; readers apply the `.get(..., "fair")`
default). -/
structure TurnResult where
  action : String
  response : String
  continueListening : Bool
  needsFollowUp : Bool
  responseQuality : Option String
deriving Repr, DecidableEq

/-- A structured judgment parsed out of the generation gateway's reply in
`_analyze_answer_intelligently`, with the code's `.get` defaults already
applied to each field. -/
structure AnalysisJudgment where
  action : String
  responseQuality : String
  needsFollowUp : Bool
  aiResponse : String
  followUpQuestion : String
  feedback : String
  completenessScore : Nat
  accuracyScore : Nat
  nextAction : String
deriving Repr, DecidableEq

/-- The generation gateway's behaviour during one turn, one field per call
site: `none` models a call that raises, times out or returns text with no
parseable structured content, which the code treats identically. -/
structure Gateway where
  clarifyText : Option String
  exampleText : Option String
  analysis : Option AnalysisJudgment
deriving Repr, DecidableEq

def repeatPhrases : List String :=
  ["repeat", "again", "say that again", "repeat question", "what was the question", "can you repeat"]

def clarifyPhrases : List String :=
  ["clarify", "explain", "what do you mean", "unclear", "confused", "don't understand", "rephrase"]

def skipPhrases : List String :=
  ["skip", "next question", "pass", "i don't know", "no idea", "not sure"]

def pacePhrases : List String :=
  ["slow down", "too fast", "speak slower"]

def examplePhrases : List String :=
  ["example", "give me an example", "for instance", "what do you mean by"]

/-- Uncertainty markers of `_fallback_intelligent_analysis`. -/
def wrongIndicators : List String :=
  ["i dont know", "no idea", "not sure", "maybe", "i think", "probably"]

/-- `any(phrase in lowered for phrase in phrases)`. -/
def anyPhraseIn (lowered : String) (phrases : List String) : Bool :=
  phrases.any (fun p => pyContains lowered p)

/-- `ConversationManager._fallback_intelligent_analysis`: the deterministic
heuristic used whenever the semantic gateway call fails or yields nothing
parseable. -/
def fallbackIntelligentAnalysis (userInput : String) : TurnResult :=
  let wordCount := pyWordCount userInput
  let hasUncertainty := wrongIndicators.any (fun ind => pyContains (pyLower userInput) ind)
  if wordCount < 5 || hasUncertainty then
    { action := "provide_feedback"
    , response := "I can see you're uncertain about this. Let me help clarify the concept and give you another chance to think about it. This is a common area that many candidates find challenging."
    , continueListening := true
    , needsFollowUp := true
    , responseQuality := some "poor" }
  else if wordCount < 15 then
    { action := "encourage_more"
    , response := "That's a good start! I can see you understand some aspects. Could you elaborate more and perhaps give me a specific example or walk me through your thought process?"
    , continueListening := true
    , needsFollowUp := true
    , responseQuality := some "fair" }
  else
    { action := "continue"
    , response := "Thank you for that comprehensive answer. I can see you have good knowledge in this area and you've explained your thinking clearly."
    , continueListening := false
    , needsFollowUp := false
    , responseQuality := some "good" }

/-- `ConversationManager._analyze_answer_intelligently`: a usable judgment
from the gateway is mapped onto the result dict; a failed call or an empty
parse falls back to the heuristic. -/
def analyzeAnswerIntelligently (gw : Option AnalysisJudgment) (userInput : String) : TurnResult :=
  match gw with
  | none => fallbackIntelligentAnalysis userInput
  | some j =>
    { action := j.action
    , response := j.aiResponse
    , continueListening := j.nextAction == "continue_listening"
    , needsFollowUp := j.needsFollowUp
    , responseQuality := some j.responseQuality }

/-- `ConversationManager._clarify_question`: gateway text, or the fixed
templated sentence on failure. -/
def clarifyQuestion (gw : Gateway) (question : String) : String :=
  match gw.clarifyText with
  | some t => t
  | none => "Let me clarify that question for you. " ++ question ++ " - I'm looking for your personal experience, thoughts, or approach to this topic. Take your time and share what comes to mind."

/-- `ConversationManager._provide_example`: gateway text, or the fixed
templated sentence on failure (the template does not mention the question). -/
def provideExample (gw : Gateway) (_question : String) : String :=
  match gw.exampleText with
  | some t => t
  | none => "For example, if I were answering this question, I might talk about a specific situation, the actions I took, and the outcome. Now, I'd like to hear about your own experience with this topic."

/-- `ConversationManager.process_user_input`: the ordered intent cascade —
phrase matches first (on the lowercased, stripped utterance), then the
too-short test (on the raw utterance), and only then the semantic gateway
analysis.  The conversation history influences only the gateway's prompt,
which the opaque `Gateway` outcome already absorbs. -/
def processUserInput (gw : Gateway) (userInput : String) (currentQuestion : String) : TurnResult :=
  let lowered := pyStrip (pyLower userInput)
  if anyPhraseIn lowered repeatPhrases then
    { action := "repeat_question"
    , response := "Of course! Let me repeat the question: " ++ currentQuestion
    , continueListening := true, needsFollowUp := false, responseQuality := none }
  else if anyPhraseIn lowered clarifyPhrases then
    { action := "clarify_question"
    , response := clarifyQuestion gw currentQuestion
    , continueListening := true, needsFollowUp := false, responseQuality := none }
  else if anyPhraseIn lowered skipPhrases then
    { action := "skip_question"
    , response := "I understand. That's perfectly fine. Let me give you a moment to think, or we can move on to the next question. What would you prefer?"
    , continueListening := true, needsFollowUp := false, responseQuality := none }
  else if anyPhraseIn lowered pacePhrases then
    { action := "adjust_pace"
    , response := "I'll speak more slowly. Let me repeat the question at a comfortable pace: " ++ currentQuestion
    , continueListening := true, needsFollowUp := false, responseQuality := none }
  else if anyPhraseIn lowered examplePhrases then
    { action := "provide_example"
    , response := provideExample gw currentQuestion
    , continueListening := true, needsFollowUp := false, responseQuality := none }
  else if pyWordCount userInput < 3 then
    { action := "encourage_elaboration"
    , response := "I'd love to hear more about that. Could you elaborate and give me more details about your thoughts or experience?"
    , continueListening := true, needsFollowUp := true, responseQuality := none }
  else
    analyzeAnswerIntelligently gw.analysis userInput

/-- A gateway where every call fails. -/
def failedGateway : Gateway := { clarifyText := none, exampleText := none, analysis := none }

example : pyWordCount "I don't know, maybe not sure" = 6 := by decide
example : pyContains (pyLower "I don't know, maybe not sure") "not sure" = true := by decide
example : (fallbackIntelligentAnalysis "I don't know, maybe not sure").action = "provide_feedback" := by decide
example : (processUserInput failedGateway "I don't know, maybe not sure" "Q").action = "skip_question" := by decide
example : (processUserInput failedGateway "hmm perhaps possibly" "Q").action = "provide_feedback" := by decide

/-! ## Data model (src/app/models.py, src/app/voice_service.py) -/

/-- A generated question (src/app/models.py, `Question`).  Type and
difficulty are carried as plain strings; neither influences the
controller's control flow. -/
structure Question where
  id : String
  questionText : String
  questionType : String
  difficulty : String
  expectedAnswerPoints : List String
deriving Repr, DecidableEq

/-- One transcript entry of the in-memory conversation list.  The event-loop
timestamp the source stores with each entry is not read by any control
decision and is omitted. -/
structure TurnEvent where
  kind : String
  text : String
  questionId : Option String
deriving Repr, DecidableEq

/-- The in-memory entry `voice_manager.active_interviews[interview_id]`
(src/app/voice_service.py, `start_voice_interview`). -/
structure InterviewData where
  currentQuestionIndex : Nat
  questions : List Question
  conversation : List TurnEvent
  status : String
  followUpCount : Nat
  currentQuestionAttempts : Nat
deriving Repr, DecidableEq

/-- A record `$push`-ed onto the stored interview's `responses` by
`_save_response_analysis`.  The analyzer's scoring payload is an opaque
external result that no control decision reads and is not modelled. -/
structure ResponseRecord where
  questionId : String
  questionText : String
  userResponse : String
  responseTime : Nat
  conversationQuality : String
deriving Repr, DecidableEq

/-- The persisted interview document (`db.interviews`), restricted to the
fields the voice flow reads or writes. -/
structure DbInterview where
  questions : List Question
  responses : List ResponseRecord
  status : String
  startedAt : Option Nat
  completedAt : Option Nat
  conversation : List TurnEvent
deriving Repr, DecidableEq

/-- The state the claims range over, for one interview id: the in-memory
session-table entry (if any) and the persisted document. -/
structure VoiceState where
  active : Option InterviewData
  db : DbInterview
deriving Repr, DecidableEq

/-- The response dict `process_voice_response` builds for the caller; keys
the turn does not set are `none`/`false`.  The `conversation` reference the
source also returns duplicates state already in `VoiceState` and is
omitted. -/
structure RespData where
  aiResponse : String
  continueSameQuestion : Bool
  hasFollowUp : Option Bool
  followUpQuestion : Option String
  nextQuestion : Option Question
  questionIndex : Option Nat
  transitionMessage : Option String
  interviewCompleted : Bool
  completionMessage : Option String
deriving Repr, DecidableEq

def initRespData (aiResponse : String) : RespData :=
  { aiResponse := aiResponse, continueSameQuestion := false, hasFollowUp := none
  , followUpQuestion := none, nextQuestion := none, questionIndex := none
  , transitionMessage := none, interviewCompleted := false, completionMessage := none }

/-! ## voice_service.py — VoiceInterviewManager -/

def transitionMessageText : String := "Great! Now let's move on to the next question."

def completionMessageText : String := "Excellent! You've completed all the questions in your interview. You provided thoughtful responses and demonstrated your skills well. Thank you for your time, and you'll receive detailed feedback shortly."

def completionEvent : TurnEvent :=
  { kind := "ai_completion", text := completionMessageText, questionId := none }

/-- Placeholder for a list access the code only performs under an in-bounds
guard; `List.getD` with it agrees with Python indexing wherever the guard
held. -/
def defaultQuestion : Question :=
  { id := "", questionText := "", questionType := "", difficulty := "", expectedAnswerPoints := [] }

/-- `VoiceInterviewManager.complete_interview`: when the in-memory entry
exists, persist final status, transcript and `completed_at` (one `$set`),
drop the entry and return True; otherwise return False and change
nothing. -/
def completeInterview (time : Nat) (s : VoiceState) : VoiceState × Bool :=
  match s.active with
  | some d =>
    ({ active := none,
       db := { s.db with
                 status := "completed",
                 conversation := d.conversation,
                 completedAt := some time } }, true)
  | none => (s, false)

/-- `VoiceInterviewManager._move_to_next_question`: advance the index, reset
the follow-up counter; with a next question append the transition and
question events, else mark the entry completed, append the completion event
and tear the session down via `complete_interview` (whose guard succeeds:
the entry is present during the turn). -/
def moveToNextQuestion (time : Nat) (d : InterviewData) (r : RespData) (db : DbInterview) :
    VoiceState × RespData :=
  let d := { d with currentQuestionIndex := d.currentQuestionIndex + 1, followUpCount := 0 }
  let nextIndex := d.currentQuestionIndex
  if nextIndex < d.questions.length then
    let nextQuestion := d.questions.getD nextIndex defaultQuestion
    let d := { d with conversation := d.conversation
        ++ [ { kind := "ai_transition", text := transitionMessageText, questionId := none }
           , { kind := "ai_question", text := nextQuestion.questionText, questionId := some nextQuestion.id } ] }
    (⟨some d, db⟩,
     { r with nextQuestion := some nextQuestion, questionIndex := some nextIndex
            , hasFollowUp := some false, transitionMessage := some transitionMessageText })
  else
    let d := { d with status := "completed", conversation := d.conversation ++ [completionEvent] }
    let r := { r with interviewCompleted := true, completionMessage := some completionMessageText }
    ((completeInterview time ⟨some d, db⟩).1, r)

/-- `VoiceInterviewManager._save_response_analysis`: push a `ResponseRecord`
for the current question onto the stored document (best-effort: a
persistence failure is caught and only means the record is not appended;
the failure-free write is modelled, the at-most-once claims being upper
bounds). -/
def saveResponseAnalysis (db : DbInterview) (q : Question) (userResponse : String)
    (responseTime : Nat) (cr : TurnResult) : DbInterview :=
  { db with responses := db.responses
      ++ [ { questionId := q.id, questionText := q.questionText
           , userResponse := userResponse, responseTime := responseTime
           , conversationQuality := cr.responseQuality.getD "fair" } ] }

def metaActions : List String :=
  ["repeat_question", "clarify_question", "provide_example", "adjust_pace"]

def encourageActions : List String :=
  ["encourage_elaboration", "encourage_more", "follow_up"]

/-- The dispatch core of `VoiceInterviewManager.process_voice_response`,
with the resolver's judgment `cr` already computed (the source obtains it
from `conversation_manager.process_user_input`; `processVoiceTurn` below
composes the two).  Guards first, then the transcript appends and the
action dispatch, exactly in source order. -/
def processVoiceResponse (time : Nat) (userResponse : String) (responseTime : Nat)
    (cr : TurnResult) (s : VoiceState) : VoiceState × Except String RespData :=
  match s.active with
  | none => (s, Except.error "Interview not found or not active")
  | some d =>
    if d.currentQuestionIndex < d.questions.length then
      let currentQuestion := d.questions.getD d.currentQuestionIndex defaultQuestion
      let d := { d with conversation := d.conversation
          ++ [ { kind := "user_response", text := userResponse, questionId := some currentQuestion.id } ] }
      let action := cr.action
      let r := initRespData cr.response
      let d := if metaActions.contains action then d
        else { d with conversation := d.conversation
            ++ [ { kind := "ai_response", text := cr.response, questionId := some currentQuestion.id } ] }
      if metaActions.contains action then
        let messageType := if action == "repeat_question" then "ai_repeat" else "ai_clarification"
        let d := { d with conversation := d.conversation
            ++ [ { kind := messageType, text := cr.response, questionId := some currentQuestion.id } ] }
        (⟨some d, s.db⟩,
         Except.ok { r with continueSameQuestion := true, hasFollowUp := some true
                          , followUpQuestion := some cr.response })
      else if encourageActions.contains action && cr.continueListening then
        let d := { d with followUpCount := d.followUpCount + 1 }
        let r := { r with hasFollowUp := some true, followUpQuestion := some cr.response }
        if d.followUpCount ≥ 2 then
          let m := moveToNextQuestion time d r s.db
          (m.1, Except.ok m.2)
        else
          (⟨some d, s.db⟩, Except.ok r)
      else if action == "skip_question" then
        let m := moveToNextQuestion time d r s.db
        (m.1, Except.ok m.2)
      else if action == "continue" || action == "move_next" || !cr.continueListening then
        let db1 := saveResponseAnalysis s.db currentQuestion userResponse responseTime cr
        let m := moveToNextQuestion time d r db1
        (m.1, Except.ok m.2)
      else
        (⟨some d, s.db⟩,
         Except.ok { r with hasFollowUp := some true, followUpQuestion := some cr.response })
    else (s, Except.error "No more questions available")

/-- `process_voice_response` including the resolver call: the judgment is
computed from the current question once the guards pass.  (The source
appends the user event before invoking the resolver; the resolver's result
does not depend on the transcript — only the gateway prompt sees it, and
the `Gateway` outcome absorbs that — so the judgment is computed here from
the pre-turn state.) -/
def processVoiceTurn (gw : Gateway) (time : Nat) (userResponse : String) (responseTime : Nat)
    (s : VoiceState) : VoiceState × Except String RespData :=
  match s.active with
  | none => (s, Except.error "Interview not found or not active")
  | some d =>
    if d.currentQuestionIndex < d.questions.length then
      let currentQuestion := d.questions.getD d.currentQuestionIndex defaultQuestion
      let cr := processUserInput gw userResponse currentQuestion.questionText
      processVoiceResponse time userResponse responseTime cr s
    else (s, Except.error "No more questions available")

/-- Result dict of a successful `start_voice_interview`. -/
structure StartResult where
  message : String
  currentQuestion : Question
  questionIndex : Nat
  totalQuestions : Nat
deriving Repr, DecidableEq

/-- `VoiceInterviewManager.start_voice_interview`.  `found` models whether
`find_one` returned a document.  The in-memory entry is created before the
first question is read, so with an empty stored question list the
`questions[0]` IndexError is caught and None is returned while the (empty)
entry stays in the table. -/
def startVoiceInterview (found : Bool) (s : VoiceState) : VoiceState × Option StartResult :=
  if !found then (s, none)
  else
    let entry : InterviewData :=
      { currentQuestionIndex := 0, questions := s.db.questions, conversation := []
      , status := "active", followUpCount := 0, currentQuestionAttempts := 0 }
    match s.db.questions with
    | [] => ({ s with active := some entry }, none)
    | q0 :: _ =>
      let entry := { entry with conversation :=
          [ { kind := "ai_question", text := q0.questionText, questionId := some q0.id } ] }
      ({ s with active := some entry },
       some { message := "Voice interview started", currentQuestion := q0
            , questionIndex := 0, totalQuestions := s.db.questions.length })

/-! ## routes.py — the HTTP layer over the voice flow -/

/-- POST /interview/{id}/start-voice: 404 "Interview not found" whenever the
manager returns None (unknown id or any caught start error); on success the
stored session is marked in_progress. -/
def routesStartVoiceInterview (found : Bool) (time : Nat) (s : VoiceState) :
    VoiceState × Except String StartResult :=
  let p := startVoiceInterview found s
  match p.2 with
  | none => (p.1, Except.error "Interview not found")
  | some res =>
    ({ p.1 with db := { p.1.db with status := "in_progress", startedAt := some time } },
     Except.ok res)

/-- POST /interview/{id}/voice-response: an empty or whitespace-only
utterance is rejected with HTTP 400 "Empty response" before the manager
runs; otherwise the manager's error (if any) or result is forwarded. -/
def routesProcessVoiceResponse (gw : Gateway) (time : Nat) (userResponse : String)
    (responseTime : Nat) (s : VoiceState) : VoiceState × Except String RespData :=
  if (pyStrip userResponse).isEmpty then (s, Except.error "Empty response")
  else processVoiceTurn gw time userResponse responseTime s

/-- POST /interview/{id}/complete: one `$set` writing status "completed" and
`completed_at` on the stored document, with no reference to the in-memory
voice session or to question progress. -/
def routesCompleteInterview (time : Nat) (db : DbInterview) : DbInterview :=
  { db with status := "completed", completedAt := some time }

/-! ## Turn traces over the controller

A turn is dispatched on the resolver's judgment; quantifying over an
arbitrary `TurnResult` covers every judgment the resolver (gateway or
fallback) can produce, so trace properties proved below hold in particular
for full `processVoiceTurn` turns. -/

/-- One turn's input to the dispatch core: the wall-clock value used if the
turn completes the interview, the utterance, its reported response time and
the resolved judgment. -/
structure CtrlInput where
  time : Nat
  userResponse : String
  responseTime : Nat
  cr : TurnResult
deriving Repr, DecidableEq

/-- The state after one dispatched turn. -/
def ctrlStep (inp : CtrlInput) (s : VoiceState) : VoiceState :=
  (processVoiceResponse inp.time inp.userResponse inp.responseTime inp.cr s).1

/-- The state after a sequence of dispatched turns. -/
def runCtrl : List CtrlInput → VoiceState → VoiceState
  | [], s => s
  | inp :: rest, s => runCtrl rest (ctrlStep inp s)

/-- Ghost observer: the question index for which this turn appends a
`ResponseRecord`, i.e. `some` exactly when the dispatch reaches the saving
branch (action continue/move_next, or the resolver said to stop
listening). -/
def saveAt (inp : CtrlInput) (s : VoiceState) : Option Nat :=
  match s.active with
  | none => none
  | some d =>
    if d.currentQuestionIndex < d.questions.length then
      if metaActions.contains inp.cr.action then none
      else if encourageActions.contains inp.cr.action && inp.cr.continueListening then none
      else if inp.cr.action == "skip_question" then none
      else if inp.cr.action == "continue" || inp.cr.action == "move_next"
              || !inp.cr.continueListening then some d.currentQuestionIndex
      else none
    else none

/-- The question indices at which a trace of turns appends a
`ResponseRecord`, in order. -/
def savesOf : List CtrlInput → VoiceState → List Nat
  | [], _ => []
  | inp :: rest, s => (saveAt inp s).toList ++ savesOf rest (ctrlStep inp s)

/-- Whether the dispatch advances the question index this turn, as a
function of the resolved judgment and the entry's follow-up counter (the
branch structure of `process_voice_response`). -/
def advancesWhen (cr : TurnResult) (followUpCount : Nat) : Bool :=
  if metaActions.contains cr.action then false
  else if encourageActions.contains cr.action && cr.continueListening then
    decide (followUpCount + 1 ≥ 2)
  else if cr.action == "skip_question" then true
  else if cr.action == "continue" || cr.action == "move_next" || !cr.continueListening then true
  else false

/-- States reachable from `s₀` by dispatched turns and teardown calls. -/
inductive Reachable (s₀ : VoiceState) : VoiceState → Prop
  | refl : Reachable s₀ s₀
  | turn (inp : CtrlInput) {s : VoiceState} : Reachable s₀ s → Reachable s₀ (ctrlStep inp s)
  | teardown (t : Nat) {s : VoiceState} : Reachable s₀ s → Reachable s₀ (completeInterview t s).1

/-- The index invariant of an in-memory entry. -/
def IndexInv (s : VoiceState) : Prop :=
  ∀ d, s.active = some d → d.currentQuestionIndex ≤ d.questions.length

/-- Between turns the follow-up counter of a live entry is at most 1. -/
def FollowUpInv (s : VoiceState) : Prop :=
  ∀ d, s.active = some d → d.followUpCount ≤ 1

/-! ## Concrete fixtures for witnesses and counterexamples -/

def q1 : Question :=
  { id := "tech_0", questionText := "What is Python and how have you used it?"
  , questionType := "technical", difficulty := "entry"
  , expectedAnswerPoints := ["Understanding of Python"] }

def q2 : Question :=
  { id := "behavioral_0", questionText := "Tell me about a time you learned something new quickly"
  , questionType := "behavioral", difficulty := "entry"
  , expectedAnswerPoints := ["Situation"] }

/-- A stored two-question session as the question-generation step leaves it. -/
def dbReady : DbInterview :=
  { questions := [q1, q2], responses := [], status := "ready"
  , startedAt := none, completedAt := none, conversation := [] }

/-- A one-question variant. -/
def dbOne : DbInterview :=
  { dbReady with questions := [q1] }

/-- The state right after a successful voice start on `dbReady`. -/
def sStarted : VoiceState := (startVoiceInterview true ⟨none, dbReady⟩).1

/-- The state right after a successful voice start on `dbOne`. -/
def sStartedOne : VoiceState := (startVoiceInterview true ⟨none, dbOne⟩).1

def crEncourage : TurnResult :=
  { action := "encourage_more", response := "Tell me more.", continueListening := true
  , needsFollowUp := true, responseQuality := some "fair" }

def crSkip : TurnResult :=
  { action := "skip_question", response := "Moving on.", continueListening := true
  , needsFollowUp := false, responseQuality := none }

def crContinue : TurnResult :=
  { action := "continue", response := "Good answer.", continueListening := false
  , needsFollowUp := false, responseQuality := some "good" }

example : sStarted.active.isSome = true := by decide
example : (ctrlStep ⟨0, "x", 1, crSkip⟩ sStarted).active.map (·.currentQuestionIndex) = some 1 := by decide
example : (ctrlStep ⟨0, "x", 1, crSkip⟩ sStartedOne).active = none := by decide
example : (ctrlStep ⟨3, "x", 1, crSkip⟩ sStartedOne).db.status = "completed" := by decide
example : (ctrlStep ⟨3, "x", 1, crSkip⟩ sStartedOne).db.completedAt = some 3 := by decide
example : (ctrlStep ⟨3, "ans", 1, crContinue⟩ sStartedOne).db.responses.length = 1 := by decide
example : (ctrlStep ⟨0, "x", 1, crEncourage⟩ sStarted).active.map (·.followUpCount) = some 1 := by decide
example :
    (ctrlStep ⟨0, "y", 1, crEncourage⟩ (ctrlStep ⟨0, "x", 1, crEncourage⟩ sStarted)).active.map
      (fun d => (d.currentQuestionIndex, d.followUpCount)) = some (1, 0) := by decide

/-! ## Step-description lemmas for the dispatch core -/

lemma ctrlStep_no_active (inp : CtrlInput) (db : DbInterview) :
    ctrlStep inp ⟨none, db⟩ = ⟨none, db⟩ := rfl

lemma ctrlStep_exhausted (inp : CtrlInput) (d : InterviewData) (db : DbInterview)
    (h : ¬ d.currentQuestionIndex < d.questions.length) :
    ctrlStep inp ⟨some d, db⟩ = ⟨some d, db⟩ := by
  simp [ctrlStep, processVoiceResponse, h]

lemma processVoiceResponse_exhausted (time : Nat) (u : String) (rt : Nat) (cr : TurnResult)
    (d : InterviewData) (db : DbInterview)
    (h : ¬ d.currentQuestionIndex < d.questions.length) :
    processVoiceResponse time u rt cr ⟨some d, db⟩
      = (⟨some d, db⟩, Except.error "No more questions available") := by
  simp [processVoiceResponse, h]

/-- The fields of an in-memory entry the invariants track: index, follow-up
counter, question list, status. -/
def entrySummary (d : InterviewData) : Nat × Nat × List Question × String :=
  (d.currentQuestionIndex, d.followUpCount, d.questions, d.status)

lemma moveToNext_next (time : Nat) (d : InterviewData) (r : RespData) (db : DbInterview)
    (h : d.currentQuestionIndex + 1 < d.questions.length) :
    (moveToNextQuestion time d r db).1.db = db ∧
    (moveToNextQuestion time d r db).1.active.map entrySummary
      = some (d.currentQuestionIndex + 1, 0, d.questions, d.status) := by
  simp [moveToNextQuestion, entrySummary, h]

lemma moveToNext_last (time : Nat) (d : InterviewData) (r : RespData) (db : DbInterview)
    (h : ¬ d.currentQuestionIndex + 1 < d.questions.length) :
    (moveToNextQuestion time d r db).1.active = none ∧
    (moveToNextQuestion time d r db).1.db.status = "completed" ∧
    (moveToNextQuestion time d r db).1.db.completedAt = some time ∧
    (moveToNextQuestion time d r db).1.db.responses = db.responses ∧
    (∃ pre, (moveToNextQuestion time d r db).1.db.conversation = pre ++ [completionEvent]) ∧
    (moveToNextQuestion time d r db).2.interviewCompleted = true := by
  simp [moveToNextQuestion, completeInterview, h]

lemma exists_concat_three {α : Type} (l : List α) (a b c : α) :
    ∃ pre, l ++ [a, b, c] = pre ++ [c] := ⟨l ++ [a, b], by simp⟩

lemma ctrlStep_meta (inp : CtrlInput) (d : InterviewData) (db : DbInterview)
    (hlt : d.currentQuestionIndex < d.questions.length)
    (hmeta : inp.cr.action ∈ metaActions) :
    (ctrlStep inp ⟨some d, db⟩).db = db ∧
    (ctrlStep inp ⟨some d, db⟩).active.map entrySummary
      = some (d.currentQuestionIndex, d.followUpCount, d.questions, d.status) := by
  simp [ctrlStep, processVoiceResponse, hlt, hmeta, entrySummary]

lemma ctrlStep_encourage_low (inp : CtrlInput) (d : InterviewData) (db : DbInterview)
    (hlt : d.currentQuestionIndex < d.questions.length)
    (hmeta : inp.cr.action ∉ metaActions)
    (henc : inp.cr.action ∈ encourageActions) (hl : inp.cr.continueListening = true)
    (hcnt : ¬ d.followUpCount + 1 ≥ 2) :
    (ctrlStep inp ⟨some d, db⟩).db = db ∧
    (ctrlStep inp ⟨some d, db⟩).active.map entrySummary
      = some (d.currentQuestionIndex, d.followUpCount + 1, d.questions, d.status) := by
  simp [ctrlStep, processVoiceResponse, hlt, hmeta, henc, hl, hcnt, entrySummary]

lemma ctrlStep_encourage_high_next (inp : CtrlInput) (d : InterviewData) (db : DbInterview)
    (hlt : d.currentQuestionIndex < d.questions.length)
    (hmeta : inp.cr.action ∉ metaActions)
    (henc : inp.cr.action ∈ encourageActions) (hl : inp.cr.continueListening = true)
    (hcnt : d.followUpCount + 1 ≥ 2)
    (hnext : d.currentQuestionIndex + 1 < d.questions.length) :
    (ctrlStep inp ⟨some d, db⟩).db = db ∧
    (ctrlStep inp ⟨some d, db⟩).active.map entrySummary
      = some (d.currentQuestionIndex + 1, 0, d.questions, d.status) := by
  simp [ctrlStep, processVoiceResponse, moveToNextQuestion, hlt, hmeta, henc, hl, hcnt, hnext,
    entrySummary]

lemma ctrlStep_encourage_high_last (inp : CtrlInput) (d : InterviewData) (db : DbInterview)
    (hlt : d.currentQuestionIndex < d.questions.length)
    (hmeta : inp.cr.action ∉ metaActions)
    (henc : inp.cr.action ∈ encourageActions) (hl : inp.cr.continueListening = true)
    (hcnt : d.followUpCount + 1 ≥ 2)
    (hlast : ¬ d.currentQuestionIndex + 1 < d.questions.length) :
    (ctrlStep inp ⟨some d, db⟩).active = none ∧
    (ctrlStep inp ⟨some d, db⟩).db.status = "completed" ∧
    (ctrlStep inp ⟨some d, db⟩).db.completedAt = some inp.time ∧
    (ctrlStep inp ⟨some d, db⟩).db.responses = db.responses ∧
    (∃ pre, (ctrlStep inp ⟨some d, db⟩).db.conversation = pre ++ [completionEvent]) := by
  simp [ctrlStep, processVoiceResponse, moveToNextQuestion, completeInterview, hlt, hmeta, henc,
    hl, hcnt, hlast]
  exact exists_concat_three _ _ _ _

lemma ctrlStep_skip_next (inp : CtrlInput) (d : InterviewData) (db : DbInterview)
    (hlt : d.currentQuestionIndex < d.questions.length)
    (hskip : inp.cr.action = "skip_question")
    (hnext : d.currentQuestionIndex + 1 < d.questions.length) :
    (ctrlStep inp ⟨some d, db⟩).db = db ∧
    (ctrlStep inp ⟨some d, db⟩).active.map entrySummary
      = some (d.currentQuestionIndex + 1, 0, d.questions, d.status) := by
  have hm : ("skip_question" : String) ∉ metaActions := by decide
  have he : ("skip_question" : String) ∉ encourageActions := by decide
  simp [ctrlStep, processVoiceResponse, moveToNextQuestion, hlt, hskip, hm, he, hnext,
    entrySummary]

lemma ctrlStep_skip_last (inp : CtrlInput) (d : InterviewData) (db : DbInterview)
    (hlt : d.currentQuestionIndex < d.questions.length)
    (hskip : inp.cr.action = "skip_question")
    (hlast : ¬ d.currentQuestionIndex + 1 < d.questions.length) :
    (ctrlStep inp ⟨some d, db⟩).active = none ∧
    (ctrlStep inp ⟨some d, db⟩).db.status = "completed" ∧
    (ctrlStep inp ⟨some d, db⟩).db.completedAt = some inp.time ∧
    (ctrlStep inp ⟨some d, db⟩).db.responses = db.responses ∧
    (∃ pre, (ctrlStep inp ⟨some d, db⟩).db.conversation = pre ++ [completionEvent]) := by
  have hm : ("skip_question" : String) ∉ metaActions := by decide
  have he : ("skip_question" : String) ∉ encourageActions := by decide
  simp [ctrlStep, processVoiceResponse, moveToNextQuestion, completeInterview, hlt, hm, he,
    hskip, hlast]
  exact exists_concat_three _ _ _ _

lemma ctrlStep_save_next (inp : CtrlInput) (d : InterviewData) (db : DbInterview)
    (hlt : d.currentQuestionIndex < d.questions.length)
    (hmeta : inp.cr.action ∉ metaActions)
    (henc : ¬(inp.cr.action ∈ encourageActions ∧ inp.cr.continueListening = true))
    (hskip : inp.cr.action ≠ "skip_question")
    (hsave : (inp.cr.action = "continue" ∨ inp.cr.action = "move_next") ∨ inp.cr.continueListening = false)
    (hnext : d.currentQuestionIndex + 1 < d.questions.length) :
    (∃ rec, (ctrlStep inp ⟨some d, db⟩).db.responses = db.responses ++ [rec]) ∧
    (ctrlStep inp ⟨some d, db⟩).db.status = db.status ∧
    (ctrlStep inp ⟨some d, db⟩).db.completedAt = db.completedAt ∧
    (ctrlStep inp ⟨some d, db⟩).active.map entrySummary
      = some (d.currentQuestionIndex + 1, 0, d.questions, d.status) := by
  simp [ctrlStep, processVoiceResponse, moveToNextQuestion, saveResponseAnalysis, hlt, hmeta,
    henc, hskip, hsave, hnext, entrySummary]

lemma ctrlStep_save_last (inp : CtrlInput) (d : InterviewData) (db : DbInterview)
    (hlt : d.currentQuestionIndex < d.questions.length)
    (hmeta : inp.cr.action ∉ metaActions)
    (henc : ¬(inp.cr.action ∈ encourageActions ∧ inp.cr.continueListening = true))
    (hskip : inp.cr.action ≠ "skip_question")
    (hsave : (inp.cr.action = "continue" ∨ inp.cr.action = "move_next") ∨ inp.cr.continueListening = false)
    (hlast : ¬ d.currentQuestionIndex + 1 < d.questions.length) :
    (∃ rec, (ctrlStep inp ⟨some d, db⟩).db.responses = db.responses ++ [rec]) ∧
    (ctrlStep inp ⟨some d, db⟩).active = none ∧
    (ctrlStep inp ⟨some d, db⟩).db.status = "completed" ∧
    (ctrlStep inp ⟨some d, db⟩).db.completedAt = some inp.time ∧
    (∃ pre, (ctrlStep inp ⟨some d, db⟩).db.conversation = pre ++ [completionEvent]) := by
  simp [ctrlStep, processVoiceResponse, moveToNextQuestion, saveResponseAnalysis,
    completeInterview, hlt, hmeta, henc, hskip, hsave, hlast]
  exact exists_concat_three _ _ _ _

lemma ctrlStep_pending (inp : CtrlInput) (d : InterviewData) (db : DbInterview)
    (hlt : d.currentQuestionIndex < d.questions.length)
    (hmeta : inp.cr.action ∉ metaActions)
    (henc : ¬(inp.cr.action ∈ encourageActions ∧ inp.cr.continueListening = true))
    (hskip : inp.cr.action ≠ "skip_question")
    (hsave : ¬((inp.cr.action = "continue" ∨ inp.cr.action = "move_next") ∨ inp.cr.continueListening = false)) :
    (ctrlStep inp ⟨some d, db⟩).db = db ∧
    (ctrlStep inp ⟨some d, db⟩).active.map entrySummary
      = some (d.currentQuestionIndex, d.followUpCount, d.questions, d.status) := by
  simp [ctrlStep, processVoiceResponse, hlt, hmeta, henc, hskip, hsave, entrySummary]

/-- Exhaustive description of one dispatched turn on a live entry: the
exhausted-guard no-op, a non-advancing turn (counter kept, or bumped while
still below the cap), an advance to an existing next question, or the
completing advance past the last question. -/
lemma ctrlStep_cases (inp : CtrlInput) (d : InterviewData) (db : DbInterview) :
    (ctrlStep inp ⟨some d, db⟩ = ⟨some d, db⟩ ∧
       ¬ d.currentQuestionIndex < d.questions.length) ∨
    (∃ c', (c' = d.followUpCount ∨ (c' = d.followUpCount + 1 ∧ c' < 2)) ∧
       (ctrlStep inp ⟨some d, db⟩).active.map entrySummary
         = some (d.currentQuestionIndex, c', d.questions, d.status) ∧
       (ctrlStep inp ⟨some d, db⟩).db = db) ∨
    (d.currentQuestionIndex + 1 < d.questions.length ∧
       (ctrlStep inp ⟨some d, db⟩).active.map entrySummary
         = some (d.currentQuestionIndex + 1, 0, d.questions, d.status) ∧
       (ctrlStep inp ⟨some d, db⟩).db.responses.length ≤ db.responses.length + 1 ∧
       (ctrlStep inp ⟨some d, db⟩).db.status = db.status ∧
       (ctrlStep inp ⟨some d, db⟩).db.completedAt = db.completedAt) ∨
    ((ctrlStep inp ⟨some d, db⟩).active = none ∧
       d.currentQuestionIndex + 1 = d.questions.length ∧
       (ctrlStep inp ⟨some d, db⟩).db.status = "completed" ∧
       (ctrlStep inp ⟨some d, db⟩).db.completedAt = some inp.time ∧
       (ctrlStep inp ⟨some d, db⟩).db.responses.length ≤ db.responses.length + 1 ∧
       (∃ pre, (ctrlStep inp ⟨some d, db⟩).db.conversation = pre ++ [completionEvent])) := by
  by_cases hlt : d.currentQuestionIndex < d.questions.length
  · by_cases hmeta : inp.cr.action ∈ metaActions
    · obtain ⟨h1, h2⟩ := ctrlStep_meta inp d db hlt hmeta
      exact Or.inr (Or.inl ⟨d.followUpCount, Or.inl rfl, h2, h1⟩)
    · by_cases henc : inp.cr.action ∈ encourageActions ∧ inp.cr.continueListening = true
      · by_cases hcnt : d.followUpCount + 1 ≥ 2
        · by_cases hnext : d.currentQuestionIndex + 1 < d.questions.length
          · obtain ⟨h1, h2⟩ :=
              ctrlStep_encourage_high_next inp d db hlt hmeta henc.1 henc.2 hcnt hnext
            exact Or.inr (Or.inr (Or.inl ⟨hnext, h2, by rw [h1]; omega, by rw [h1], by rw [h1]⟩))
          · obtain ⟨h1, h2, h3, h4, h5⟩ :=
              ctrlStep_encourage_high_last inp d db hlt hmeta henc.1 henc.2 hcnt hnext
            exact Or.inr (Or.inr (Or.inr ⟨h1, by omega, h2, h3, by rw [h4]; omega, h5⟩))
        · obtain ⟨h1, h2⟩ := ctrlStep_encourage_low inp d db hlt hmeta henc.1 henc.2 hcnt
          exact Or.inr (Or.inl ⟨d.followUpCount + 1, Or.inr ⟨rfl, by omega⟩, h2, h1⟩)
      · by_cases hskip : inp.cr.action = "skip_question"
        · by_cases hnext : d.currentQuestionIndex + 1 < d.questions.length
          · obtain ⟨h1, h2⟩ := ctrlStep_skip_next inp d db hlt hskip hnext
            exact Or.inr (Or.inr (Or.inl ⟨hnext, h2, by rw [h1]; omega, by rw [h1], by rw [h1]⟩))
          · obtain ⟨h1, h2, h3, h4, h5⟩ := ctrlStep_skip_last inp d db hlt hskip hnext
            exact Or.inr (Or.inr (Or.inr ⟨h1, by omega, h2, h3, by rw [h4]; omega, h5⟩))
        · by_cases hsave : (inp.cr.action = "continue" ∨ inp.cr.action = "move_next")
              ∨ inp.cr.continueListening = false
          · by_cases hnext : d.currentQuestionIndex + 1 < d.questions.length
            · obtain ⟨⟨rec, h1⟩, hst, hca, h2⟩ :=
                ctrlStep_save_next inp d db hlt hmeta henc hskip hsave hnext
              exact Or.inr (Or.inr (Or.inl ⟨hnext, h2, by rw [h1]; simp, hst, hca⟩))
            · obtain ⟨⟨rec, h1⟩, h2, h3, h4, h5⟩ :=
                ctrlStep_save_last inp d db hlt hmeta henc hskip hsave hnext
              exact Or.inr (Or.inr (Or.inr ⟨h2, by omega, h3, h4, by rw [h1]; simp, h5⟩))
          · obtain ⟨h1, h2⟩ := ctrlStep_pending inp d db hlt hmeta henc hskip hsave
            exact Or.inr (Or.inl ⟨d.followUpCount, Or.inl rfl, h2, h1⟩)
  · exact Or.inl ⟨ctrlStep_exhausted inp d db hlt, hlt⟩

lemma ctrlStep_no_active_state (inp : CtrlInput) {s : VoiceState} (h : s.active = none) :
    ctrlStep inp s = s := by
  obtain ⟨a, db⟩ := s
  cases h
  rfl

lemma completeInterview_active (t : Nat) (s : VoiceState) :
    (completeInterview t s).1.active = none ∨ (completeInterview t s).1 = s := by
  obtain ⟨a, db⟩ := s
  cases a
  · exact Or.inr rfl
  · exact Or.inl rfl

lemma indexInv_ctrlStep (inp : CtrlInput) {s : VoiceState} (h : IndexInv s) :
    IndexInv (ctrlStep inp s) := by
  obtain ⟨a, db⟩ := s
  cases a with
  | none => simpa [ctrlStep_no_active] using h
  | some d =>
    have hd := h d rfl
    intro d' hd'
    rcases ctrlStep_cases inp d db with ⟨heq, _⟩ | ⟨c', _, hsum, _⟩ | ⟨hn, hsum, _⟩ | ⟨hnone, _⟩
    · rw [heq] at hd'
      cases hd'
      exact hd
    · rw [hd'] at hsum
      simp only [Option.map_some', Option.some.injEq, entrySummary, Prod.mk.injEq] at hsum
      obtain ⟨e1, _, e3, _⟩ := hsum
      rw [e1, e3]
      exact hd
    · rw [hd'] at hsum
      simp only [Option.map_some', Option.some.injEq, entrySummary, Prod.mk.injEq] at hsum
      obtain ⟨e1, _, e3, _⟩ := hsum
      rw [e1, e3]
      omega
    · rw [hnone] at hd'
      cases hd'

lemma followUpInv_ctrlStep (inp : CtrlInput) {s : VoiceState} (h : FollowUpInv s) :
    FollowUpInv (ctrlStep inp s) := by
  obtain ⟨a, db⟩ := s
  cases a with
  | none => simpa [ctrlStep_no_active] using h
  | some d =>
    have hd := h d rfl
    intro d' hd'
    rcases ctrlStep_cases inp d db with ⟨heq, _⟩ | ⟨c', hc, hsum, _⟩ | ⟨hn, hsum, _⟩ | ⟨hnone, _⟩
    · rw [heq] at hd'
      cases hd'
      exact hd
    · rw [hd'] at hsum
      simp only [Option.map_some', Option.some.injEq, entrySummary, Prod.mk.injEq] at hsum
      obtain ⟨_, e2, _, _⟩ := hsum
      rcases hc with hc | ⟨hc, hlt2⟩ <;> omega
    · rw [hd'] at hsum
      simp only [Option.map_some', Option.some.injEq, entrySummary, Prod.mk.injEq] at hsum
      obtain ⟨_, e2, _, _⟩ := hsum
      omega
    · rw [hnone] at hd'
      cases hd'

lemma indexInv_teardown (t : Nat) {s : VoiceState} (h : IndexInv s) :
    IndexInv (completeInterview t s).1 := by
  rcases completeInterview_active t s with hn | he
  · intro d hd
    rw [hn] at hd
    cases hd
  · rw [he]
    exact h

lemma followUpInv_teardown (t : Nat) {s : VoiceState} (h : FollowUpInv s) :
    FollowUpInv (completeInterview t s).1 := by
  rcases completeInterview_active t s with hn | he
  · intro d hd
    rw [hn] at hd
    cases hd
  · rw [he]
    exact h

lemma indexInv_reachable {s₀ s : VoiceState} (h₀ : IndexInv s₀) (h : Reachable s₀ s) :
    IndexInv s := by
  induction h with
  | refl => exact h₀
  | turn inp _ ih => exact indexInv_ctrlStep inp ih
  | teardown t _ ih => exact indexInv_teardown t ih

lemma followUpInv_reachable {s₀ s : VoiceState} (h₀ : FollowUpInv s₀) (h : Reachable s₀ s) :
    FollowUpInv s := by
  induction h with
  | refl => exact h₀
  | turn inp _ ih => exact followUpInv_ctrlStep inp ih
  | teardown t _ ih => exact followUpInv_teardown t ih

lemma startVoiceInterview_indexInv (found : Bool) (db : DbInterview) :
    IndexInv (startVoiceInterview found ⟨none, db⟩).1 := by
  intro d hd
  cases found with
  | false => simp [startVoiceInterview] at hd
  | true =>
    cases hq : db.questions with
    | nil =>
      simp [startVoiceInterview, hq] at hd
      subst hd
      simp
    | cons q rest =>
      simp [startVoiceInterview, hq] at hd
      subst hd
      simp

lemma startVoiceInterview_followUpInv (found : Bool) (db : DbInterview) :
    FollowUpInv (startVoiceInterview found ⟨none, db⟩).1 := by
  intro d hd
  cases found with
  | false => simp [startVoiceInterview] at hd
  | true =>
    cases hq : db.questions with
    | nil =>
      simp [startVoiceInterview, hq] at hd
      subst hd
      simp
    | cons q rest =>
      simp [startVoiceInterview, hq] at hd
      subst hd
      simp

lemma active_ne_none_of_map {s : VoiceState} {v : Nat × Nat × List Question × String}
    (h : s.active.map entrySummary = some v) : s.active ≠ none := by
  intro hn
  rw [hn] at h
  simp at h

/-- One turn on a live, unexhausted entry tears the session down exactly
when the dispatched action advances and the advance passes the last
question. -/
lemma ctrlStep_completes_iff (inp : CtrlInput) (d : InterviewData) (db : DbInterview)
    (hlt : d.currentQuestionIndex < d.questions.length) :
    (ctrlStep inp ⟨some d, db⟩).active = none ↔
      advancesWhen inp.cr d.followUpCount = true ∧
        d.currentQuestionIndex + 1 = d.questions.length := by
  by_cases hmeta : inp.cr.action ∈ metaActions
  · obtain ⟨_, h2⟩ := ctrlStep_meta inp d db hlt hmeta
    exact iff_of_false (active_ne_none_of_map h2)
      (by rintro ⟨ha, _⟩; simp [advancesWhen, hmeta] at ha)
  · by_cases henc : inp.cr.action ∈ encourageActions ∧ inp.cr.continueListening = true
    · by_cases hcnt : d.followUpCount + 1 ≥ 2
      · by_cases hnext : d.currentQuestionIndex + 1 < d.questions.length
        · obtain ⟨_, h2⟩ :=
            ctrlStep_encourage_high_next inp d db hlt hmeta henc.1 henc.2 hcnt hnext
          exact iff_of_false (active_ne_none_of_map h2) (by rintro ⟨_, hb⟩; omega)
        · obtain ⟨h1, _⟩ :=
            ctrlStep_encourage_high_last inp d db hlt hmeta henc.1 henc.2 hcnt hnext
          refine iff_of_true h1 ⟨?_, by omega⟩
          simp [advancesWhen, hmeta, henc.1, henc.2]
          omega
      · obtain ⟨_, h2⟩ := ctrlStep_encourage_low inp d db hlt hmeta henc.1 henc.2 hcnt
        refine iff_of_false (active_ne_none_of_map h2) ?_
        rintro ⟨ha, _⟩
        simp [advancesWhen, hmeta, henc.1, henc.2] at ha
        omega
    · by_cases hskip : inp.cr.action = "skip_question"
      · by_cases hnext : d.currentQuestionIndex + 1 < d.questions.length
        · obtain ⟨_, h2⟩ := ctrlStep_skip_next inp d db hlt hskip hnext
          exact iff_of_false (active_ne_none_of_map h2) (by rintro ⟨_, hb⟩; omega)
        · obtain ⟨h1, _⟩ := ctrlStep_skip_last inp d db hlt hskip hnext
          refine iff_of_true h1 ⟨?_, by omega⟩
          simp [advancesWhen, hmeta, henc, hskip]
          exact ⟨by decide, Or.inl (Or.inl (by decide))⟩
      · by_cases hsave : (inp.cr.action = "continue" ∨ inp.cr.action = "move_next")
            ∨ inp.cr.continueListening = false
        · by_cases hnext : d.currentQuestionIndex + 1 < d.questions.length
          · obtain ⟨_, _, _, h2⟩ := ctrlStep_save_next inp d db hlt hmeta henc hskip hsave hnext
            exact iff_of_false (active_ne_none_of_map h2) (by rintro ⟨_, hb⟩; omega)
          · obtain ⟨_, h1, _⟩ := ctrlStep_save_last inp d db hlt hmeta henc hskip hsave hnext
            refine iff_of_true h1 ⟨?_, by omega⟩
            simp [advancesWhen, hmeta, henc, hskip, hsave]
        · obtain ⟨_, h2⟩ := ctrlStep_pending inp d db hlt hmeta henc hskip hsave
          refine iff_of_false (active_ne_none_of_map h2) ?_
          rintro ⟨ha, _⟩
          simp [advancesWhen, hmeta, henc, hskip, hsave] at ha

/-- When a turn tears the session down, the advance was past the last
question and the persisted document carries final status, `completed_at`
and a transcript ending in the completion event. -/
lemma ctrlStep_completed_db (inp : CtrlInput) (d : InterviewData) (db : DbInterview)
    (hnone : (ctrlStep inp ⟨some d, db⟩).active = none) :
    d.currentQuestionIndex + 1 = d.questions.length ∧
    (ctrlStep inp ⟨some d, db⟩).db.status = "completed" ∧
    (ctrlStep inp ⟨some d, db⟩).db.completedAt = some inp.time ∧
    (∃ pre, (ctrlStep inp ⟨some d, db⟩).db.conversation = pre ++ [completionEvent]) := by
  rcases ctrlStep_cases inp d db with ⟨heq, _⟩ | ⟨c', _, hsum, _⟩ | ⟨_, hsum, _⟩
    | ⟨_, h1, h2, h3, _, h5⟩
  · rw [heq] at hnone
    simp at hnone
  · exact absurd hnone (active_ne_none_of_map hsum)
  · exact absurd hnone (active_ne_none_of_map hsum)
  · exact ⟨h1, h2, h3, h5⟩

lemma ctrlStep_index_mono (inp : CtrlInput) (d d' : InterviewData) (db : DbInterview)
    (h' : (ctrlStep inp ⟨some d, db⟩).active = some d') :
    d.currentQuestionIndex ≤ d'.currentQuestionIndex := by
  rcases ctrlStep_cases inp d db with ⟨heq, _⟩ | ⟨c', _, hsum, _⟩ | ⟨_, hsum, _⟩ | ⟨hnone, _⟩
  · rw [heq] at h'
    simp only [Option.some.injEq] at h'
    rw [← h']
  · rw [h'] at hsum
    simp only [Option.map_some', Option.some.injEq, entrySummary, Prod.mk.injEq] at hsum
    omega
  · rw [h'] at hsum
    simp only [Option.map_some', Option.some.injEq, entrySummary, Prod.mk.injEq] at hsum
    omega
  · rw [hnone] at h'
    cases h'

lemma ctrlStep_status_preserved (inp : CtrlInput) (d d' : InterviewData) (db : DbInterview)
    (h' : (ctrlStep inp ⟨some d, db⟩).active = some d') :
    d'.status = d.status := by
  rcases ctrlStep_cases inp d db with ⟨heq, _⟩ | ⟨c', _, hsum, _⟩ | ⟨_, hsum, _⟩ | ⟨hnone, _⟩
  · rw [heq] at h'
    simp only [Option.some.injEq] at h'
    rw [← h']
  · rw [h'] at hsum
    simp only [Option.map_some', Option.some.injEq, entrySummary, Prod.mk.injEq] at hsum
    exact hsum.2.2.2
  · rw [h'] at hsum
    simp only [Option.map_some', Option.some.injEq, entrySummary, Prod.mk.injEq] at hsum
    exact hsum.2.2.2
  · rw [hnone] at h'
    cases h'

lemma saveAt_none_state (inp : CtrlInput) {s : VoiceState} (h : s.active = none) :
    saveAt inp s = none := by
  obtain ⟨a, db⟩ := s
  cases h
  rfl

/-- A turn appends a record exactly when the ghost observer fires, and it
fires only on the saving branch, at the pre-turn index, with the index
strictly advanced afterwards. -/
lemma saveAt_some (inp : CtrlInput) (d : InterviewData) (db : DbInterview) {i : Nat}
    (h : saveAt inp ⟨some d, db⟩ = some i) :
    i = d.currentQuestionIndex ∧
    ((inp.cr.action = "continue" ∨ inp.cr.action = "move_next")
       ∨ inp.cr.continueListening = false) ∧
    inp.cr.action ∉ metaActions ∧
    ∀ d', (ctrlStep inp ⟨some d, db⟩).active = some d' → i < d'.currentQuestionIndex := by
  by_cases hlt : d.currentQuestionIndex < d.questions.length
  · by_cases hmeta : inp.cr.action ∈ metaActions
    · simp [saveAt, hlt, hmeta] at h
    · by_cases henc : inp.cr.action ∈ encourageActions ∧ inp.cr.continueListening = true
      · simp [saveAt, hlt, hmeta, henc] at h
      · by_cases hskip : inp.cr.action = "skip_question"
        · simp [saveAt, hlt, hmeta, henc, hskip] at h
        · by_cases hsave : (inp.cr.action = "continue" ∨ inp.cr.action = "move_next")
              ∨ inp.cr.continueListening = false
          · have hi : i = d.currentQuestionIndex := by
              simp [saveAt, hlt, hmeta, henc, hskip, hsave] at h
              omega
            subst hi
            refine ⟨rfl, hsave, hmeta, ?_⟩
            intro d' h'
            by_cases hnext : d.currentQuestionIndex + 1 < d.questions.length
            · obtain ⟨_, _, _, h2⟩ :=
                ctrlStep_save_next inp d db hlt hmeta henc hskip hsave hnext
              rw [h'] at h2
              simp only [Option.map_some', Option.some.injEq, entrySummary,
                Prod.mk.injEq] at h2
              omega
            · obtain ⟨_, h1, _⟩ := ctrlStep_save_last inp d db hlt hmeta henc hskip hsave hnext
              rw [h'] at h1
              cases h1
          · simp [saveAt, hlt, hmeta, henc, hskip, hsave] at h
  · simp [saveAt, hlt] at h

/-- A turn changes the stored `responses` list length by exactly the ghost
observer's count. -/
lemma responses_length_ctrlStep (inp : CtrlInput) (s : VoiceState) :
    (ctrlStep inp s).db.responses.length
      = s.db.responses.length + (saveAt inp s).toList.length := by
  obtain ⟨a, db⟩ := s
  cases a with
  | none => simp [ctrlStep_no_active, saveAt]
  | some d =>
    by_cases hlt : d.currentQuestionIndex < d.questions.length
    · by_cases hmeta : inp.cr.action ∈ metaActions
      · obtain ⟨h1, _⟩ := ctrlStep_meta inp d db hlt hmeta
        rw [h1]
        simp [saveAt, hlt, hmeta]
      · by_cases henc : inp.cr.action ∈ encourageActions ∧ inp.cr.continueListening = true
        · by_cases hcnt : d.followUpCount + 1 ≥ 2
          · by_cases hnext : d.currentQuestionIndex + 1 < d.questions.length
            · obtain ⟨h1, _⟩ :=
                ctrlStep_encourage_high_next inp d db hlt hmeta henc.1 henc.2 hcnt hnext
              rw [h1]
              simp [saveAt, hlt, hmeta, henc]
            · obtain ⟨_, _, _, h4, _⟩ :=
                ctrlStep_encourage_high_last inp d db hlt hmeta henc.1 henc.2 hcnt hnext
              rw [h4]
              simp [saveAt, hlt, hmeta, henc]
          · obtain ⟨h1, _⟩ := ctrlStep_encourage_low inp d db hlt hmeta henc.1 henc.2 hcnt
            rw [h1]
            simp [saveAt, hlt, hmeta, henc]
        · by_cases hskip : inp.cr.action = "skip_question"
          · by_cases hnext : d.currentQuestionIndex + 1 < d.questions.length
            · obtain ⟨h1, _⟩ := ctrlStep_skip_next inp d db hlt hskip hnext
              rw [h1]
              simp [saveAt, hlt, hmeta, henc, hskip]
            · obtain ⟨_, _, _, h4, _⟩ := ctrlStep_skip_last inp d db hlt hskip hnext
              rw [h4]
              simp [saveAt, hlt, hmeta, henc, hskip]
          · by_cases hsave : (inp.cr.action = "continue" ∨ inp.cr.action = "move_next")
                ∨ inp.cr.continueListening = false
            · by_cases hnext : d.currentQuestionIndex + 1 < d.questions.length
              · obtain ⟨⟨rec, h1⟩, _⟩ :=
                  ctrlStep_save_next inp d db hlt hmeta henc hskip hsave hnext
                rw [h1]
                simp [saveAt, hlt, hmeta, henc, hskip, hsave]
              · obtain ⟨⟨rec, h1⟩, _⟩ :=
                  ctrlStep_save_last inp d db hlt hmeta henc hskip hsave hnext
                rw [h1]
                simp [saveAt, hlt, hmeta, henc, hskip, hsave]
            · obtain ⟨h1, _⟩ := ctrlStep_pending inp d db hlt hmeta henc hskip hsave
              rw [h1]
              simp [saveAt, hlt, hmeta, henc, hskip, hsave]
    · rw [ctrlStep_exhausted inp d db hlt]
      simp [saveAt, hlt]

lemma savesOf_ge (inputs : List CtrlInput) :
    ∀ (s : VoiceState) (n : Nat),
      (∀ d, s.active = some d → n ≤ d.currentQuestionIndex) →
      ∀ i ∈ savesOf inputs s, n ≤ i := by
  induction inputs with
  | nil =>
    intro s n _ i hi
    simp [savesOf] at hi
  | cons inp rest ih =>
    intro s n hb i hi
    rw [savesOf] at hi
    rcases List.mem_append.mp hi with hi | hi
    · obtain ⟨a, db⟩ := s
      cases a with
      | none => rw [saveAt_none_state inp rfl] at hi; simp at hi
      | some d =>
        cases hsv : saveAt inp ⟨some d, db⟩ with
        | none => rw [hsv] at hi; simp at hi
        | some j =>
          rw [hsv] at hi
          simp only [Option.toList_some, List.mem_singleton] at hi
          subst hi
          obtain ⟨hj, _⟩ := saveAt_some inp d db hsv
          rw [hj]
          exact hb d rfl
    · refine ih (ctrlStep inp s) n ?_ i hi
      intro d' hd'
      obtain ⟨a, db⟩ := s
      cases a with
      | none =>
        rw [ctrlStep_no_active] at hd'
        cases hd'
      | some d =>
        exact le_trans (hb d rfl) (ctrlStep_index_mono inp d d' db hd')

lemma savesOf_pairwise_lt (inputs : List CtrlInput) :
    ∀ s : VoiceState, (savesOf inputs s).Pairwise (· < ·) := by
  induction inputs with
  | nil =>
    intro s
    simp [savesOf]
  | cons inp rest ih =>
    intro s
    rw [savesOf]
    obtain ⟨a, db⟩ := s
    cases a with
    | none =>
      rw [saveAt_none_state inp rfl]
      simpa using ih _
    | some d =>
      cases hsv : saveAt inp ⟨some d, db⟩ with
      | none => simpa using ih _
      | some i =>
        simp only [Option.toList_some, List.singleton_append]
        refine List.Pairwise.cons ?_ (ih _)
        intro j hj
        obtain ⟨_, _, _, hadv⟩ := saveAt_some inp d db hsv
        refine savesOf_ge rest (ctrlStep inp ⟨some d, db⟩) (i + 1) ?_ j hj
        intro d' hd'
        exact hadv d' hd'

lemma runCtrl_responses_length (inputs : List CtrlInput) :
    ∀ s : VoiceState, (runCtrl inputs s).db.responses.length
      = s.db.responses.length + (savesOf inputs s).length := by
  induction inputs with
  | nil =>
    intro s
    simp [runCtrl, savesOf]
  | cons inp rest ih =>
    intro s
    rw [runCtrl, savesOf, ih, responses_length_ctrlStep]
    simp only [List.length_append]
    omega

lemma encourage_not_meta {a : String} (h : a ∈ encourageActions) : a ∉ metaActions := by
  simp only [encourageActions, List.mem_cons, List.not_mem_nil, or_false] at h
  rcases h with h | h | h <;> subst h <;> decide

/-! ## Further fixtures -/

/-- The in-memory entry `sStarted` holds (start on the two-question store). -/
def dStart : InterviewData :=
  { currentQuestionIndex := 0, questions := [q1, q2]
  , conversation := [{ kind := "ai_question", text := q1.questionText, questionId := some q1.id }]
  , status := "active", followUpCount := 0, currentQuestionAttempts := 0 }

/-- An entry whose index has reached the end of its question list. -/
def dDone : InterviewData :=
  { currentQuestionIndex := 2, questions := [q1, q2], conversation := []
  , status := "active", followUpCount := 0, currentQuestionAttempts := 0 }

example : sStarted = ⟨some dStart, dbReady⟩ := by decide

/-! ## The claims -/

/-- C1: for every active session the invariant
`current_question_index <= len(questions)` holds in every reachable state;
a turn on an entry whose index has reached `len(questions)` is rejected
unchanged; and a turn on a live entry tears the session down (status
"completed" persisted together with the completion transcript event and
`completed_at`) exactly when the dispatched action advances past the last
question. -/
theorem c1_index_invariant_and_completion :
    (∀ (found : Bool) (db : DbInterview) (s : VoiceState),
       Reachable (startVoiceInterview found ⟨none, db⟩).1 s → IndexInv s) ∧
    (∀ (time : Nat) (u : String) (rt : Nat) (cr : TurnResult) (d : InterviewData)
       (db : DbInterview), d.currentQuestionIndex = d.questions.length →
       processVoiceResponse time u rt cr ⟨some d, db⟩
         = (⟨some d, db⟩, Except.error "No more questions available")) ∧
    (∀ (inp : CtrlInput) (d : InterviewData) (db : DbInterview),
       d.currentQuestionIndex < d.questions.length →
       (((ctrlStep inp ⟨some d, db⟩).active = none ↔
           advancesWhen inp.cr d.followUpCount = true ∧
             d.currentQuestionIndex + 1 = d.questions.length) ∧
        ((ctrlStep inp ⟨some d, db⟩).active = none →
           (ctrlStep inp ⟨some d, db⟩).db.status = "completed" ∧
           (ctrlStep inp ⟨some d, db⟩).db.completedAt = some inp.time ∧
           ∃ pre, (ctrlStep inp ⟨some d, db⟩).db.conversation
             = pre ++ [completionEvent]))) := by
  refine ⟨?_, ?_, ?_⟩
  · intro found db s h
    exact indexInv_reachable (startVoiceInterview_indexInv found db) h
  · intro time u rt cr d db h
    exact processVoiceResponse_exhausted time u rt cr d db (by omega)
  · intro inp d db hlt
    refine ⟨ctrlStep_completes_iff inp d db hlt, fun hn => ?_⟩
    obtain ⟨_, h2, h3, h4⟩ := ctrlStep_completed_db inp d db hn
    exact ⟨h2, h3, h4⟩

theorem c1_witness :
    IndexInv (ctrlStep ⟨0, "x", 1, crSkip⟩ sStarted) ∧
    processVoiceResponse 0 "more detail" 1 crContinue ⟨some dDone, dbReady⟩
      = (⟨some dDone, dbReady⟩, Except.error "No more questions available") ∧
    ((ctrlStep ⟨3, "x", 1, crSkip⟩ ⟨some dStart, dbOne⟩).active = none ↔
       advancesWhen crSkip 0 = true ∧ 0 + 1 = dStart.questions.length) :=
  ⟨c1_index_invariant_and_completion.1 true dbReady _
      (Reachable.turn ⟨0, "x", 1, crSkip⟩ Reachable.refl),
   c1_index_invariant_and_completion.2.1 0 "more detail" 1 crContinue dDone dbReady (by decide),
   c1_index_invariant_and_completion.2.2 ⟨3, "x", 1, crSkip⟩ dStart dbOne (by decide) |>.1⟩

/-- C2: an encourage-class action with `continue_listening` bumps the
session's follow-up counter; whenever the bumped counter reaches 2 the same
turn advances to the next question (or completes); and in every reachable
state the counter of a live entry is at most 1, so it never exceeds 2
before an advancement. -/
theorem c2_followup_counter_cap :
    (∀ (found : Bool) (db : DbInterview) (s : VoiceState),
       Reachable (startVoiceInterview found ⟨none, db⟩).1 s → FollowUpInv s) ∧
    (∀ (inp : CtrlInput) (d : InterviewData) (db : DbInterview),
       d.currentQuestionIndex < d.questions.length →
       inp.cr.action ∈ encourageActions → inp.cr.continueListening = true →
       ((d.followUpCount + 1 < 2 →
           (ctrlStep inp ⟨some d, db⟩).active.map entrySummary
             = some (d.currentQuestionIndex, d.followUpCount + 1, d.questions, d.status)) ∧
        (d.followUpCount + 1 ≥ 2 →
           ((ctrlStep inp ⟨some d, db⟩).active = none ∧
              d.currentQuestionIndex + 1 = d.questions.length) ∨
           (ctrlStep inp ⟨some d, db⟩).active.map entrySummary
             = some (d.currentQuestionIndex + 1, 0, d.questions, d.status)))) := by
  refine ⟨?_, ?_⟩
  · intro found db s h
    exact followUpInv_reachable (startVoiceInterview_followUpInv found db) h
  · intro inp d db hlt henc hl
    have hmeta : inp.cr.action ∉ metaActions := encourage_not_meta henc
    constructor
    · intro hcnt
      exact (ctrlStep_encourage_low inp d db hlt hmeta henc hl (by omega)).2
    · intro hcnt
      by_cases hnext : d.currentQuestionIndex + 1 < d.questions.length
      · exact Or.inr
          (ctrlStep_encourage_high_next inp d db hlt hmeta henc hl hcnt hnext).2
      · exact Or.inl
          ⟨(ctrlStep_encourage_high_last inp d db hlt hmeta henc hl hcnt hnext).1, by omega⟩

theorem c2_witness :
    FollowUpInv (ctrlStep ⟨0, "x", 1, crEncourage⟩ sStarted) ∧
    (ctrlStep ⟨0, "x", 1, crEncourage⟩ ⟨some dStart, dbReady⟩).active.map entrySummary
      = some (0, 1, [q1, q2], "active") :=
  ⟨c2_followup_counter_cap.1 true dbReady _
      (Reachable.turn ⟨0, "x", 1, crEncourage⟩ Reachable.refl),
   (c2_followup_counter_cap.2 ⟨0, "x", 1, crEncourage⟩ dStart dbReady (by decide) (by decide)
      rfl).1 (by decide)⟩

/-- C3: a turn whose resolved action is skip_question advances the question
index by exactly 1 and resets the follow-up counter to 0 (or, on the last
question, completes the session), for any prior counter value, and appends
no ResponseRecord. -/
theorem c3_skip_advances_without_record :
    ∀ (inp : CtrlInput) (d : InterviewData) (db : DbInterview),
      inp.cr.action = "skip_question" →
      d.currentQuestionIndex < d.questions.length →
      (ctrlStep inp ⟨some d, db⟩).db.responses = db.responses ∧
      ((ctrlStep inp ⟨some d, db⟩).active.map entrySummary
          = some (d.currentQuestionIndex + 1, 0, d.questions, d.status) ∨
       ((ctrlStep inp ⟨some d, db⟩).active = none ∧
          d.currentQuestionIndex + 1 = d.questions.length)) := by
  intro inp d db hskip hlt
  by_cases hnext : d.currentQuestionIndex + 1 < d.questions.length
  · obtain ⟨h1, h2⟩ := ctrlStep_skip_next inp d db hlt hskip hnext
    exact ⟨by rw [h1], Or.inl h2⟩
  · obtain ⟨h1, _, _, h4, _⟩ := ctrlStep_skip_last inp d db hlt hskip hnext
    exact ⟨h4, Or.inr ⟨h1, by omega⟩⟩

theorem c3_witness :
    (ctrlStep ⟨0, "pass", 1, crSkip⟩ ⟨some { dStart with followUpCount := 1 }, dbReady⟩).db.responses
        = dbReady.responses ∧
    ((ctrlStep ⟨0, "pass", 1, crSkip⟩
        ⟨some { dStart with followUpCount := 1 }, dbReady⟩).active.map entrySummary
          = some (0 + 1, 0, [q1, q2], "active") ∨
     ((ctrlStep ⟨0, "pass", 1, crSkip⟩
         ⟨some { dStart with followUpCount := 1 }, dbReady⟩).active = none ∧
        0 + 1 = 2)) :=
  c3_skip_advances_without_record ⟨0, "pass", 1, crSkip⟩
    { dStart with followUpCount := 1 } dbReady rfl (by decide)

/-- Whether the lowercased utterance contains one of the six uncertainty
markers the fallback heuristic checks (the markers as claim C4 lists
them). -/
def hasUncertaintyMarker (u : String) : Bool :=
  anyPhraseIn (pyLower u)
    ["i dont know", "no idea", "not sure", "maybe", "i think", "probably"]

/-- C4: on fallback, the resolver's (action, quality, continue_listening)
is determined exactly by the word count and the uncertainty markers: short
or uncertain answers get provide_feedback/poor/listen-on, medium answers
encourage_more/fair/listen-on, and everything else continue/good/stop. -/
theorem c4_fallback_determinism :
    ∀ u : String,
      ((fallbackIntelligentAnalysis u).action,
       (fallbackIntelligentAnalysis u).responseQuality,
       (fallbackIntelligentAnalysis u).continueListening)
        = if pyWordCount u < 5 ∨ hasUncertaintyMarker u = true then
            ("provide_feedback", some "poor", true)
          else if pyWordCount u < 15 then
            ("encourage_more", some "fair", true)
          else
            ("continue", some "good", false) := by
  intro u
  have hmark : wrongIndicators.any (fun ind => pyContains (pyLower u) ind)
      = hasUncertaintyMarker u := rfl
  simp only [fallbackIntelligentAnalysis]
  rw [hmark]
  by_cases h1 : pyWordCount u < 5 <;> by_cases h2 : hasUncertaintyMarker u = true <;>
    by_cases h3 : pyWordCount u < 15 <;>
      simp [h1, h2, h3]

/-- C5: over any trace of dispatched turns the indices at which a
ResponseRecord is appended are strictly increasing (hence at most one
record per question index), the stored `responses` list grows by exactly
one entry per such save, and a save happens only on the
continue/move_next/stop-listening branch and strictly advances the index
in the same turn. -/
theorem c5_response_record_once_per_index :
    (∀ (inputs : List CtrlInput) (s : VoiceState),
       (savesOf inputs s).Pairwise (· < ·) ∧ (savesOf inputs s).Nodup ∧
       (runCtrl inputs s).db.responses.length
         = s.db.responses.length + (savesOf inputs s).length) ∧
    (∀ (inp : CtrlInput) (d : InterviewData) (db : DbInterview) (i : Nat),
       saveAt inp ⟨some d, db⟩ = some i →
       (((inp.cr.action = "continue" ∨ inp.cr.action = "move_next")
           ∨ inp.cr.continueListening = false) ∧
        i = d.currentQuestionIndex ∧
        ∀ d', (ctrlStep inp ⟨some d, db⟩).active = some d' →
          i < d'.currentQuestionIndex)) := by
  refine ⟨?_, ?_⟩
  · intro inputs s
    refine ⟨savesOf_pairwise_lt inputs s, ?_, runCtrl_responses_length inputs s⟩
    exact (savesOf_pairwise_lt inputs s).imp fun h => Nat.ne_of_lt h
  · intro inp d db i h
    obtain ⟨hi, hsave, _, hadv⟩ := saveAt_some inp d db h
    exact ⟨hsave, hi, hadv⟩

theorem c5_witness :
    ((savesOf [⟨0, "ans", 1, crContinue⟩, ⟨0, "x", 1, crSkip⟩] sStarted).Pairwise (· < ·) ∧
     (savesOf [⟨0, "ans", 1, crContinue⟩, ⟨0, "x", 1, crSkip⟩] sStarted).Nodup ∧
     (runCtrl [⟨0, "ans", 1, crContinue⟩, ⟨0, "x", 1, crSkip⟩] sStarted).db.responses.length
       = sStarted.db.responses.length
         + (savesOf [⟨0, "ans", 1, crContinue⟩, ⟨0, "x", 1, crSkip⟩] sStarted).length) ∧
    (((crContinue.action = "continue" ∨ crContinue.action = "move_next")
        ∨ crContinue.continueListening = false) ∧
     0 = dStart.currentQuestionIndex ∧
     ∀ d', (ctrlStep ⟨0, "ans", 1, crContinue⟩ ⟨some dStart, dbReady⟩).active = some d' →
       0 < d'.currentQuestionIndex) :=
  ⟨c5_response_record_once_per_index.1 [⟨0, "ans", 1, crContinue⟩, ⟨0, "x", 1, crSkip⟩] sStarted,
   c5_response_record_once_per_index.2 ⟨0, "ans", 1, crContinue⟩ dStart dbReady 0 (by decide)⟩

/-- A three-word evasive utterance that reaches the semantic resolver (no
meta phrase matches, not too short) and, under gateway failure, resolves to
provide_feedback with continue_listening — the branch that neither advances
nor touches the follow-up counter. -/
def evasiveUtterance : String := "hmm perhaps possibly"

/-- One full turn (resolver included) with the gateway down and the evasive
utterance. -/
def evasiveTurn (s : VoiceState) : VoiceState :=
  (processVoiceTurn failedGateway 0 evasiveUtterance 1 s).1

/-- C6 counterexample: on a live one-question session, three consecutive
evasive turns — more than the claimed cap of 2 — leave the question index
at 0 and the follow-up counter at 0, and the session alive: the evasive
turn resolves to provide_feedback with continue_listening=true, a branch
that performs no advancement, so turns on one question are not bounded by
the follow-up cap and an adversarial user can prevent advancement
indefinitely. -/
theorem c6_counterexample :
    (evasiveTurn (evasiveTurn (evasiveTurn sStartedOne))).active.map
        (fun d => (d.currentQuestionIndex, d.followUpCount)) = some (0, 0) ∧
    (processUserInput failedGateway evasiveUtterance q1.questionText).action
      = "provide_feedback" ∧
    (processUserInput failedGateway evasiveUtterance q1.questionText).continueListening
      = true ∧ 3 > 2 := by
  refine ⟨by decide, by decide, by decide, by decide⟩

/-- C6 amended: advancement within 2 turns is guaranteed only for
encourage-class actions with continue_listening: starting from any reachable
counter value (at most 1), two consecutive such turns strictly advance the
question index or complete the session. -/
theorem c6_amended_encourage_turns_terminate :
    ∀ (inp1 inp2 : CtrlInput) (d : InterviewData) (db : DbInterview),
      d.followUpCount ≤ 1 → d.currentQuestionIndex < d.questions.length →
      inp1.cr.action ∈ encourageActions → inp1.cr.continueListening = true →
      inp2.cr.action ∈ encourageActions → inp2.cr.continueListening = true →
      (ctrlStep inp2 (ctrlStep inp1 ⟨some d, db⟩)).active = none ∨
      (∃ d', (ctrlStep inp2 (ctrlStep inp1 ⟨some d, db⟩)).active = some d' ∧
         d.currentQuestionIndex < d'.currentQuestionIndex) := by
  intro inp1 inp2 d db hcap hlt henc1 hl1 henc2 hl2
  have hmeta1 : inp1.cr.action ∉ metaActions := encourage_not_meta henc1
  have hmeta2 : inp2.cr.action ∉ metaActions := encourage_not_meta henc2
  by_cases hcnt : d.followUpCount + 1 ≥ 2
  · by_cases hnext : d.currentQuestionIndex + 1 < d.questions.length
    · obtain ⟨h1, h2⟩ := ctrlStep_encourage_high_next inp1 d db hlt hmeta1 henc1 hl1 hcnt hnext
      cases ha : (ctrlStep inp1 ⟨some d, db⟩).active with
      | none => rw [ha] at h2; simp at h2
      | some d1 =>
        rw [ha] at h2
        simp only [Option.map_some', Option.some.injEq, entrySummary, Prod.mk.injEq] at h2
        obtain ⟨e1, e2, e3, e4⟩ := h2
        have hstep1 : ctrlStep inp1 ⟨some d, db⟩ = ⟨some d1, (ctrlStep inp1 ⟨some d, db⟩).db⟩ := by
          cases hs : ctrlStep inp1 ⟨some d, db⟩ with
          | mk a db2 => rw [hs] at ha; cases ha; rfl
        have hlt1 : d1.currentQuestionIndex < d1.questions.length := by
          rw [e1, e3]; exact hnext
        rw [hstep1]
        by_cases hcnt1 : d1.followUpCount + 1 ≥ 2
        · by_cases hnext1 : d1.currentQuestionIndex + 1 < d1.questions.length
          · obtain ⟨_, h2'⟩ := ctrlStep_encourage_high_next inp2 d1 _ hlt1 hmeta2 henc2 hl2 hcnt1 hnext1
            cases ha2 : (ctrlStep inp2 ⟨some d1, (ctrlStep inp1 ⟨some d, db⟩).db⟩).active with
            | none => exact Or.inl rfl
            | some d2 =>
              rw [ha2] at h2'
              simp only [Option.map_some', Option.some.injEq, entrySummary, Prod.mk.injEq] at h2'
              exact Or.inr ⟨d2, rfl, by omega⟩
          · exact Or.inl (ctrlStep_encourage_high_last inp2 d1 _ hlt1 hmeta2 henc2 hl2 hcnt1 hnext1).1
        · obtain ⟨_, h2'⟩ := ctrlStep_encourage_low inp2 d1 _ hlt1 hmeta2 henc2 hl2 hcnt1
          cases ha2 : (ctrlStep inp2 ⟨some d1, (ctrlStep inp1 ⟨some d, db⟩).db⟩).active with
          | none => exact Or.inl rfl
          | some d2 =>
            rw [ha2] at h2'
            simp only [Option.map_some', Option.some.injEq, entrySummary, Prod.mk.injEq] at h2'
            exact Or.inr ⟨d2, rfl, by omega⟩
    · have h1 := (ctrlStep_encourage_high_last inp1 d db hlt hmeta1 henc1 hl1 hcnt hnext).1
      rw [ctrlStep_no_active_state inp2 h1]
      exact Or.inl h1
  · obtain ⟨h1, h2⟩ := ctrlStep_encourage_low inp1 d db hlt hmeta1 henc1 hl1 hcnt
    cases ha : (ctrlStep inp1 ⟨some d, db⟩).active with
    | none => rw [ha] at h2; simp at h2
    | some d1 =>
      rw [ha] at h2
      simp only [Option.map_some', Option.some.injEq, entrySummary, Prod.mk.injEq] at h2
      obtain ⟨e1, e2, e3, e4⟩ := h2
      have hstep1 : ctrlStep inp1 ⟨some d, db⟩ = ⟨some d1, (ctrlStep inp1 ⟨some d, db⟩).db⟩ := by
        cases hs : ctrlStep inp1 ⟨some d, db⟩ with
        | mk a db2 => rw [hs] at ha; cases ha; rfl
      have hlt1 : d1.currentQuestionIndex < d1.questions.length := by
        rw [e1, e3]; exact hlt
      have hcnt1 : d1.followUpCount + 1 ≥ 2 := by omega
      rw [hstep1]
      by_cases hnext1 : d1.currentQuestionIndex + 1 < d1.questions.length
      · obtain ⟨_, h2'⟩ := ctrlStep_encourage_high_next inp2 d1 _ hlt1 hmeta2 henc2 hl2 hcnt1 hnext1
        cases ha2 : (ctrlStep inp2 ⟨some d1, (ctrlStep inp1 ⟨some d, db⟩).db⟩).active with
        | none => exact Or.inl rfl
        | some d2 =>
          rw [ha2] at h2'
          simp only [Option.map_some', Option.some.injEq, entrySummary, Prod.mk.injEq] at h2'
          exact Or.inr ⟨d2, rfl, by omega⟩
      · exact Or.inl (ctrlStep_encourage_high_last inp2 d1 _ hlt1 hmeta2 henc2 hl2 hcnt1 hnext1).1

theorem c6_witness :
    (ctrlStep ⟨0, "y", 1, crEncourage⟩ (ctrlStep ⟨0, "x", 1, crEncourage⟩
        ⟨some dStart, dbReady⟩)).active = none ∨
    (∃ d', (ctrlStep ⟨0, "y", 1, crEncourage⟩ (ctrlStep ⟨0, "x", 1, crEncourage⟩
        ⟨some dStart, dbReady⟩)).active = some d' ∧
       dStart.currentQuestionIndex < d'.currentQuestionIndex) :=
  c6_amended_encourage_turns_terminate ⟨0, "x", 1, crEncourage⟩ ⟨0, "y", 1, crEncourage⟩
    dStart dbReady (by decide) (by decide) (by decide) rfl (by decide) rfl

/-- C7 counterexample: the plain /interview/{id}/complete route marks the
stored two-question session completed (and sets completed_at) while the
voice entry still stands at question index 0 — a completion that is not the
controller's advance-past-last-question path — and a second call at a later
wall-clock time changes the document again (completed_at is rewritten), so
completion is not exactly-once. -/
theorem c7_counterexample :
    (routesCompleteInterview 5 dbReady).status = "completed" ∧
    (routesCompleteInterview 5 dbReady).completedAt = some 5 ∧
    dStart.currentQuestionIndex = 0 ∧
    dStart.questions.length = 2 ∧
    dStart.currentQuestionIndex + 1 ≠ dStart.questions.length ∧
    routesCompleteInterview 7 (routesCompleteInterview 5 dbReady)
      ≠ routesCompleteInterview 5 dbReady := by
  refine ⟨rfl, rfl, rfl, rfl, by decide, by decide⟩

/-- C7 amended: within the voice controller, teardown persists status
"completed" and completed_at together, removes the in-memory entry, and a
second teardown call finds no entry, returns False and changes nothing; a
live entry's status is never changed by a turn, and a turn changes the
persisted status only by tearing the session down.  The /complete route,
however, sets status and completed_at regardless of question progress and
can do so repeatedly. -/
theorem c7_completion_and_teardown_idempotence :
    ∀ (t1 t2 : Nat) (s : VoiceState) (d : InterviewData), s.active = some d →
      ((completeInterview t1 s).2 = true ∧
       (completeInterview t1 s).1.active = none ∧
       (completeInterview t1 s).1.db.status = "completed" ∧
       (completeInterview t1 s).1.db.completedAt = some t1 ∧
       completeInterview t2 (completeInterview t1 s).1 = ((completeInterview t1 s).1, false)) ∧
      (∀ (inp : CtrlInput) (d' : InterviewData),
         (ctrlStep inp s).active = some d' → d'.status = d.status) ∧
      (∀ inp : CtrlInput, (ctrlStep inp s).db.status ≠ s.db.status →
         (ctrlStep inp s).active = none ∧
         (ctrlStep inp s).db.status = "completed" ∧
         (ctrlStep inp s).db.completedAt = some inp.time) := by
  intro t1 t2 s d hd
  obtain ⟨a, db⟩ := s
  cases hd
  refine ⟨⟨rfl, rfl, rfl, rfl, rfl⟩, ?_, ?_⟩
  · intro inp d' h'
    exact ctrlStep_status_preserved inp d d' db h'
  · intro inp hne
    rcases ctrlStep_cases inp d db with ⟨heq, _⟩ | ⟨c', _, _, hdb⟩ | ⟨_, _, _, hst, _⟩
      | ⟨h1, _, h3, h4, _⟩
    · rw [heq] at hne
      exact absurd rfl hne
    · rw [hdb] at hne
      exact absurd rfl hne
    · exact absurd hst hne
    · exact ⟨h1, h3, h4⟩

theorem c7_witness :
    ((completeInterview 4 sStarted).2 = true ∧
     (completeInterview 4 sStarted).1.active = none ∧
     (completeInterview 4 sStarted).1.db.status = "completed" ∧
     (completeInterview 4 sStarted).1.db.completedAt = some 4 ∧
     completeInterview 9 (completeInterview 4 sStarted).1
       = ((completeInterview 4 sStarted).1, false)) ∧
    (∀ (inp : CtrlInput) (d' : InterviewData),
       (ctrlStep inp sStarted).active = some d' → d'.status = dStart.status) ∧
    (∀ inp : CtrlInput, (ctrlStep inp sStarted).db.status ≠ sStarted.db.status →
       (ctrlStep inp sStarted).active = none ∧
       (ctrlStep inp sStarted).db.status = "completed" ∧
       (ctrlStep inp sStarted).db.completedAt = some inp.time) :=
  c7_completion_and_teardown_idempotence 4 9 sStarted dStart (by decide)

/-- C8: a turn submission whose utterance strips to empty is rejected with
the distinct 400 "Empty response" validation error before any turn
processing, the state (transcript, index, everything) unchanged. -/
theorem c8_empty_utterance_rejected :
    ∀ (gw : Gateway) (time : Nat) (u : String) (rt : Nat) (s : VoiceState),
      pyStrip u = "" →
      routesProcessVoiceResponse gw time u rt s = (s, Except.error "Empty response") ∧
      "Empty response" ≠ "Interview not found or not active" ∧
      "Empty response" ≠ "No more questions available" ∧
      "Empty response" ≠ "Interview not found" := by
  intro gw time u rt s h
  refine ⟨?_, by decide, by decide, by decide⟩
  have he : ("" : String).isEmpty = true := by decide
  simp [routesProcessVoiceResponse, h, he]

theorem c8_witness :
    routesProcessVoiceResponse failedGateway 0 "   " 1 sStarted
      = (sStarted, Except.error "Empty response") :=
  (c8_empty_utterance_rejected failedGateway 0 "   " 1 sStarted (by decide)).1

/-- The spec's C9 utterance. -/
def c9Utterance : String := "I don't know, maybe not sure"

/-- C9 counterexample: a turn on the utterance "I don't know, maybe not
sure" never reaches the fallback analyzer: the lowercased utterance
contains the skip phrase "i don't know", so the phrase cascade
short-circuits to skip_question before any gateway call, not to
provide_feedback. -/
theorem c9_counterexample :
    (processUserInput failedGateway c9Utterance q1.questionText).action = "skip_question" ∧
    (processUserInput failedGateway c9Utterance q1.questionText).action
      ≠ "provide_feedback" ∧
    pyContains (pyStrip (pyLower c9Utterance)) "i don't know" = true := by
  refine ⟨by decide, by decide, by decide⟩

/-- C9 amended: under gateway failure, processing the utterance as a turn
resolves to skip_question via the phrase cascade (with
continue_listening=true and no quality label); the fallback analyzer
itself, applied directly to the utterance, does yield provide_feedback with
quality poor and continue_listening=true, since the utterance contains the
uncertainty markers "not sure" and "maybe". -/
theorem c9_skip_phrase_shortcircuit :
    (processUserInput failedGateway c9Utterance q1.questionText).action = "skip_question" ∧
    (processUserInput failedGateway c9Utterance q1.questionText).continueListening = true ∧
    (processUserInput failedGateway c9Utterance q1.questionText).responseQuality = none ∧
    (fallbackIntelligentAnalysis c9Utterance).action = "provide_feedback" ∧
    (fallbackIntelligentAnalysis c9Utterance).responseQuality = some "poor" ∧
    (fallbackIntelligentAnalysis c9Utterance).continueListening = true := by
  refine ⟨by decide, by decide, by decide, by decide, by decide, by decide⟩

/-- C10: starting the voice interview for a stored session whose question
list is empty returns None — the in-memory entry is created, then reading
questions[0] raises, the exception is caught and None returned — and the
route surfaces this as the same 404 "Interview not found" used for unknown
session ids. -/
theorem c10_empty_question_list_not_found :
    ∀ (time : Nat) (s : VoiceState), s.db.questions = [] →
      (startVoiceInterview true s).2 = none ∧
      (routesStartVoiceInterview true time s).2 = Except.error "Interview not found" ∧
      ∀ (s2 : VoiceState),
        (routesStartVoiceInterview false time s2).2 = Except.error "Interview not found" := by
  intro time s hq
  refine ⟨?_, ?_, ?_⟩
  · simp [startVoiceInterview, hq]
  · simp [routesStartVoiceInterview, startVoiceInterview, hq]
  · intro s2
    simp [routesStartVoiceInterview, startVoiceInterview]

theorem c10_witness :
    (startVoiceInterview true ⟨none, { dbReady with questions := [] }⟩).2 = none ∧
    (routesStartVoiceInterview true 0 ⟨none, { dbReady with questions := [] }⟩).2
      = Except.error "Interview not found" ∧
    ∀ (s2 : VoiceState),
      (routesStartVoiceInterview false 0 s2).2 = Except.error "Interview not found" :=
  c10_empty_question_list_not_found 0 ⟨none, { dbReady with questions := [] }⟩ (by decide)
